import Mathlib

/-!
Verification of the Safe client-gateway demo core (src/index.ts, class SafeClient)
against its natural-language specification.

The embedding models the pure computational core of the TypeScript source:
  * the EIP-712 Safe transaction hash computation (calculateSafeTransactionHash),
    parametric in the keccak256 primitive (an arbitrary 32-byte-output digest),
    with viem's encodeAbiParameters / encodePacked semantics spelled out at byte level;
  * the signature combination helper (combineSignatures), including the in-place
    mutation of the argument array performed by Array.prototype.sort, modelled by
    returning the post-call array state alongside the result string;
  * the pure comparison at the heart of verifySignatures;
  * the input validation getSafeInfo performs before issuing any network request.
Bytes are Nat values < 256; byte strings are List Nat; JS strings are String.
-/

/-- Big-endian base-256 encoding of a natural number into exactly `w` bytes
(the value is taken modulo 256^w, as each byte is a base-256 digit). -/
def beBytes : Nat → Nat → List Nat
  | 0, _ => []
  | w + 1, n => beBytes w (n / 256) ++ [n % 256]

/-- Value of one hex digit character (0 for non-hex characters, which the
well-formed inputs of the source never contain). -/
def hexDigitVal (c : Char) : Nat :=
  if '0' ≤ c ∧ c ≤ '9' then c.toNat - '0'.toNat
  else if 'a' ≤ c ∧ c ≤ 'f' then c.toNat - 'a'.toNat + 10
  else if 'A' ≤ c ∧ c ≤ 'F' then c.toNat - 'A'.toNat + 10
  else 0

/-- Decode a list of hex digit characters, two characters per byte. -/
def hexPairsToBytes : List Char → List Nat
  | c1 :: c2 :: rest => (16 * hexDigitVal c1 + hexDigitVal c2) :: hexPairsToBytes rest
  | _ => []

/-- Decode a 0x-prefixed hex string (the representation viem uses for all
byte values in the source) into its underlying bytes. -/
def hexToBytes (s : String) : List Nat :=
  hexPairsToBytes (s.data.drop 2)

/-- Constant from the source: keccak256 of the Safe transaction typed-data schema. -/
def SAFE_TX_TYPEHASH : String :=
  "0xbb8310d486368db6bd6f849402fdd73ad53d316b5a4b2644ad6efe0f941286d8"

/-- Constant from the source: keccak256 of
the EIP712Domain(uint256 chainId,address verifyingContract) type string. -/
def DOMAIN_SEPARATOR_TYPEHASH : String :=
  "0x47e79534a245952e8b16893a336b85a3d9ea9fa8c573f3d803afb92a79469218"

/-- The SafeTransactionData record of the source: addresses and data as
0x-prefixed hex strings, integer fields as (unsigned) naturals. -/
structure SafeTransactionData where
  «to» : String
  value : Nat
  data : String
  operation : Nat
  safeTxGas : Nat
  baseGas : Nat
  gasPrice : Nat
  gasToken : String
  refundReceiver : String
  nonce : Nat

/-- Left-zero-pad a byte string to a 32-byte ABI slot. -/
def padLeft32 (bs : List Nat) : List Nat :=
  List.replicate (32 - bs.length) 0 ++ bs

/-- viem encodeAbiParameters, type bytes32: the 32 raw bytes. -/
def abiBytes32 (h : String) : List Nat := hexToBytes h

/-- viem encodeAbiParameters, type uint256: 32-byte big-endian. -/
def abiUint256 (n : Nat) : List Nat := beBytes 32 n

/-- viem encodeAbiParameters, type uint8: the value in a full 32-byte big-endian slot. -/
def abiUint8 (n : Nat) : List Nat := beBytes 32 n

/-- viem encodeAbiParameters, type address: the 20 address bytes
left-zero-padded to a 32-byte slot. -/
def abiAddress (a : String) : List Nat := padLeft32 (hexToBytes a)

/-- The ABI-encoded (bytes32, uint256, address) tuple hashed for the domain
separator, as in step 1 of the source's calculateSafeTransactionHash. -/
def encodeDomainTuple (chainId : Nat) (safeAddress : String) : List Nat :=
  abiBytes32 DOMAIN_SEPARATOR_TYPEHASH ++ abiUint256 chainId ++ abiAddress safeAddress

/-- Step 1 of the source's calculateSafeTransactionHash. -/
def domainSeparatorOf (keccak : List Nat → List Nat)
    (chainId : Nat) (safeAddress : String) : List Nat :=
  keccak (encodeDomainTuple chainId safeAddress)

/-- The ABI-encoded 11-tuple hashed for the transaction struct hash, as in
step 2 of the source's calculateSafeTransactionHash. -/
def encodeSafeTxTuple (keccak : List Nat → List Nat) (tx : SafeTransactionData) : List Nat :=
  abiBytes32 SAFE_TX_TYPEHASH ++ abiAddress tx.to ++ abiUint256 tx.value ++
    keccak (hexToBytes tx.data) ++ abiUint8 tx.operation ++ abiUint256 tx.safeTxGas ++
    abiUint256 tx.baseGas ++ abiUint256 tx.gasPrice ++ abiAddress tx.gasToken ++
    abiAddress tx.refundReceiver ++ abiUint256 tx.nonce

/-- Step 2 of the source's calculateSafeTransactionHash. -/
def safeTxStructHashOf (keccak : List Nat → List Nat) (tx : SafeTransactionData) : List Nat :=
  keccak (encodeSafeTxTuple keccak tx)

/-- SafeClient.calculateSafeTransactionHash: keccak256 of the encodePacked
(bytes1 0x19, bytes1 0x01, bytes32 domainSeparator, bytes32 safeTxHash)
concatenation, parametric in the keccak256 primitive. -/
def calculateSafeTransactionHash (keccak : List Nat → List Nat)
    (safeAddress : String) (chainId : Nat) (tx : SafeTransactionData) : List Nat :=
  keccak ([0x19] ++ [0x01] ++
    domainSeparatorOf keccak chainId safeAddress ++ safeTxStructHashOf keccak tx)

/-- Spec-side rendering of a uint256 slot, written from the claim's words:
byte i (from the left) is the base-256 digit of weight 256^(31-i). -/
def specUint256 (n : Nat) : List Nat :=
  (List.range 32).map fun i => n / 256 ^ (31 - i) % 256

/-- Spec-side rendering of the claim's "operation as uint8 padded to 32 bytes". -/
def specUint8as32 (n : Nat) : List Nat := padLeft32 [n]

/-- Spec-side domain separator, written from the claim's words: keccak256 of the
ABI-encoded tuple (DOMAIN_SEPARATOR_TYPEHASH, chainId, safeAddress). -/
def specDomainSeparator (keccak : List Nat → List Nat)
    (chainId : Nat) (safeAddress : String) : List Nat :=
  keccak (hexToBytes DOMAIN_SEPARATOR_TYPEHASH ++ specUint256 chainId ++
    padLeft32 (hexToBytes safeAddress))

/-- Spec-side struct hash, written from the claim's words: keccak256 of the
ABI-encoded 11-tuple (SAFE_TX_TYPEHASH, to, value, keccak256(data), operation,
safeTxGas, baseGas, gasPrice, gasToken, refundReceiver, nonce). -/
def specStructHash (keccak : List Nat → List Nat) (tx : SafeTransactionData) : List Nat :=
  keccak (hexToBytes SAFE_TX_TYPEHASH ++ padLeft32 (hexToBytes tx.to) ++
    specUint256 tx.value ++ keccak (hexToBytes tx.data) ++ specUint8as32 tx.operation ++
    specUint256 tx.safeTxGas ++ specUint256 tx.baseGas ++ specUint256 tx.gasPrice ++
    padLeft32 (hexToBytes tx.gasToken) ++ padLeft32 (hexToBytes tx.refundReceiver) ++
    specUint256 tx.nonce)

/-- Spec-side packed pre-image of the final digest: the packed concatenation
0x19, 0x01, domain separator, struct hash. -/
def specPackedInput (keccak : List Nat → List Nat)
    (safeAddress : String) (chainId : Nat) (tx : SafeTransactionData) : List Nat :=
  0x19 :: 0x01 :: (specDomainSeparator keccak chainId safeAddress ++ specStructHash keccak tx)

/-- Boolean lexicographic comparison of JS strings (as character lists):
the model of localeCompare(a, b) being non-positive on the ASCII hex strings
the source compares (ICU collation coincides with code-point order there). -/
def strLeb : List Char → List Char → Bool
  | [], _ => true
  | _ :: _, [] => false
  | a :: as, b :: bs => if a < b then true else if b < a then false else strLeb as bs

/-- JS String.prototype.toLowerCase, character by character (the source only
lowercases ASCII hex address strings, where this is exact). -/
def jsToLower (s : String) : String := ⟨s.data.map Char.toLower⟩

/-- The signer field of a confirmation object returned by the transaction
service: an object with a value holding the address hex string. -/
structure SignerRef where
  value : String
deriving DecidableEq

/-- One entry of detailedExecutionInfo.confirmations, as consumed by
SafeClient.combineSignatures. -/
structure Confirmation where
  signer : SignerRef
  signature : String
deriving DecidableEq

/-- The sort key used by combineSignatures: the lower-cased signer address. -/
def sigKey (c : Confirmation) : String := jsToLower c.signer.value

/-- The comparator of combineSignatures: a before b when
a.signer.value.toLowerCase().localeCompare(b.signer.value.toLowerCase()) is
non-positive. -/
def sigLe (a b : Confirmation) : Prop :=
  strLeb (sigKey a).data (sigKey b).data = true

instance : DecidableRel sigLe := fun a b =>
  instDecidableEqBool (strLeb (sigKey a).data (sigKey b).data) true

/-- The stable sort performed by Array.prototype.sort with the comparator of
combineSignatures (ECMAScript sort is required to be stable; insertion sort
with a non-strict comparator is the same stable sort). -/
def sortSigs (signatures : List Confirmation) : List Confirmation :=
  List.insertionSort sigLe signatures

/-- Array.prototype.join with the empty separator. -/
def joinAll : List String → String
  | [] => ""
  | s :: rest => s ++ joinAll rest

/-- SafeClient.combineSignatures. Array.prototype.sort mutates its receiver
and returns it, so the call reorders the caller's array; the first component
is the array's contents after the call, the second the returned string:
0x followed by each signature with its 0x prefix sliced off, concatenated in
sorted order. -/
def combineSignatures (signatures : List Confirmation) : List Confirmation × String :=
  (sortSigs signatures,
    "0x" ++ joinAll ((sortSigs signatures).map fun sig => sig.signature.drop 2))

/-- The pure comparison at the heart of SafeClient.verifySignatures:
confirmations.length >= confirmationsRequired (both taken from the fetched
transaction info). -/
def verifySignaturesCheck (confirmations : List Confirmation)
    (confirmationsRequired : Nat) : Bool :=
  decide (confirmations.length ≥ confirmationsRequired)

/-- Modelled from the spec: the error kinds of the Signature Coordinator
component (section 7); the repository itself contains no such coordinator. -/
inductive CoordError where
  | DuplicateSignerError
deriving DecidableEq

/-- A Signature of the spec data model: signer address plus signature bytes. -/
structure RecordedSignature where
  signerAddress : String
  signatureBytes : String
deriving DecidableEq

/-- Modelled from the spec: addSignature of section 4.2. The repository keeps
no local signature store (its signTransaction posts the signature to the
remote service), so the operation is modelled from the spec words: appending
to the recorded set for a hash fails with DuplicateSignerError when the
signer address already has a recorded signature. -/
def addSignature (recorded : List RecordedSignature) (sig : RecordedSignature) :
    Except CoordError (List RecordedSignature) :=
  if recorded.any fun r => r.signerAddress == sig.signerAddress then
    Except.error CoordError.DuplicateSignerError
  else
    Except.ok (recorded ++ [sig])

/-- The regex test of getSafeInfo: whether the string matches
caret 0x[a-fA-F0-9] repeated 40 times dollar. -/
def isValidSafeAddress (s : String) : Bool :=
  match s.data with
  | '0' :: 'x' :: rest =>
      rest.length == 40 && rest.all fun c =>
        (decide ('a' ≤ c) && decide (c ≤ 'f')) ||
        (decide ('A' ≤ c) && decide (c ≤ 'F')) ||
        (decide ('0' ≤ c) && decide (c ≤ '9'))
  | _ => false

/-- The base URL constant of the source. -/
def BASE_URL : String := "https://safe-client.safe.global"

/-- SafeClient.getSafeInfo up to its network request: the validation sequence
it runs before any fetch. An error value is a throw before the fetch (no
request issued); an ok value carries the URL the fetch would be issued with. -/
def getSafeInfoRequest (chainId safeAddress : String) : Except String String :=
  if chainId = "" ∨ safeAddress = "" then
    Except.error "Chain ID and Safe address are required"
  else if isValidSafeAddress safeAddress = false then
    Except.error "Invalid Safe address format"
  else
    Except.ok (BASE_URL ++ "/v1/chains/" ++ chainId ++ "/safes/" ++ safeAddress)

/-- A concrete 32-byte-output digest standing in for keccak256 in witnesses. -/
def keccak0 : List Nat → List Nat := fun bs => List.replicate 32 (bs.length % 256)

/-- A concrete Safe address for witnesses. -/
def addr0 : String := "0x5afe005afe005afe005afe005afe005afe005afe"

/-- A concrete transaction for witnesses: the zero-nonce one-wei ETH transfer
of the example workflow. -/
def tx0 : SafeTransactionData :=
  { «to» := "0x000000000000000000000000000000000000dEaD"
    value := 1
    data := "0x"
    operation := 0
    safeTxGas := 0
    baseGas := 0
    gasPrice := 0
    gasToken := "0x0000000000000000000000000000000000000000"
    refundReceiver := "0x0000000000000000000000000000000000000000"
    nonce := 0 }

/-- A concrete confirmation with the lexicographically smaller signer. -/
def cA : Confirmation := { signer := { value := "0xAa" }, signature := "0xa1a1" }

/-- A concrete confirmation with the lexicographically larger signer. -/
def cB : Confirmation := { signer := { value := "0xbB" }, signature := "0xb2b2" }

/-- A concrete confirmation whose signature is a full 65-byte payload
(0x followed by 130 hex characters). -/
def sig132 : Confirmation :=
  { signer := { value := "0xCc" }
    signature := "0xababababababababababababababababababababababababababababababababababababababababababababababababababababababababababababababababab" }

/-- A concrete recorded signature for the coordinator witnesses. -/
def recA : RecordedSignature := { signerAddress := "0xAa", signatureBytes := "0x01" }

/-- A second recorded signature with the same signer address but different bytes. -/
def recB : RecordedSignature := { signerAddress := "0xAa", signatureBytes := "0x02" }

theorem beBytes_eq_spec (w : Nat) : ∀ n : Nat,
    beBytes w n = (List.range w).map fun i => n / 256 ^ (w - 1 - i) % 256 := by
  induction w with
  | zero => intro n; rfl
  | succ w ih =>
    intro n
    rw [beBytes, ih (n / 256), List.range_succ, List.map_append]
    congr 1
    · apply List.map_congr_left
      intro i hi
      have hiw : i < w := List.mem_range.mp hi
      have h1 : n / 256 / 256 ^ (w - 1 - i) = n / 256 ^ (w + 1 - 1 - i) := by
        rw [Nat.div_div_eq_div_mul]
        congr 1
        have : w + 1 - 1 - i = (w - 1 - i) + 1 := by omega
        rw [this, pow_succ]
        ring
      rw [h1]
    · simp

theorem beBytes_zero (w : Nat) : beBytes w 0 = List.replicate w 0 := by
  induction w with
  | zero => rfl
  | succ w ih =>
    simp [beBytes, Nat.zero_div, ih, List.replicate_succ']

theorem abiUint256_eq_specUint256 (n : Nat) : abiUint256 n = specUint256 n := by
  unfold abiUint256 specUint256
  rw [beBytes_eq_spec]

theorem abiUint8_eq_specUint8as32 (n : Nat) (h : n < 256) :
    abiUint8 n = specUint8as32 n := by
  unfold abiUint8 specUint8as32 padLeft32
  show beBytes 32 n = List.replicate (32 - 1) 0 ++ [n]
  rw [show (32 : Nat) = 31 + 1 from rfl, beBytes,
    Nat.div_eq_of_lt h, Nat.mod_eq_of_lt h, beBytes_zero]

theorem strLeb_total : ∀ x y : List Char, strLeb x y = true ∨ strLeb y x = true
  | [], _ => Or.inl rfl
  | _ :: _, [] => Or.inr rfl
  | a :: as, b :: bs => by
    rcases lt_trichotomy a b with h | h | h
    · exact Or.inl (by simp only [strLeb]; rw [if_pos h])
    · subst h
      rcases strLeb_total as bs with h2 | h2
      · exact Or.inl (by simp only [strLeb, if_neg (lt_irrefl a)]; exact h2)
      · exact Or.inr (by simp only [strLeb, if_neg (lt_irrefl a)]; exact h2)
    · exact Or.inr (by simp only [strLeb]; rw [if_pos h])

theorem strLeb_trans : ∀ x y z : List Char,
    strLeb x y = true → strLeb y z = true → strLeb x z = true
  | [], _, _, _, _ => rfl
  | _ :: _, [], _, h1, _ => by simp [strLeb] at h1
  | _ :: _, _ :: _, [], _, h2 => by simp [strLeb] at h2
  | a :: as, b :: bs, c :: cs, h1, h2 => by
    simp only [strLeb] at h1 h2 ⊢
    rcases lt_trichotomy a b with hab | hab | hab
    · rcases lt_trichotomy b c with hbc | hbc | hbc
      · rw [if_pos (lt_trans hab hbc)]
      · subst hbc; rw [if_pos hab]
      · rw [if_neg (lt_asymm hbc), if_pos hbc] at h2; exact absurd h2 (by simp)
    · subst hab
      rw [if_neg (lt_irrefl a), if_neg (lt_irrefl a)] at h1
      rcases lt_trichotomy a c with hac | hac | hac
      · rw [if_pos hac]
      · subst hac
        rw [if_neg (lt_irrefl a), if_neg (lt_irrefl a)] at h2 ⊢
        exact strLeb_trans as bs cs h1 h2
      · rw [if_neg (lt_asymm hac), if_pos hac] at h2; exact absurd h2 (by simp)
    · rw [if_neg (lt_asymm hab), if_pos hab] at h1; exact absurd h1 (by simp)

theorem strLeb_antisymm : ∀ x y : List Char,
    strLeb x y = true → strLeb y x = true → x = y
  | [], [], _, _ => rfl
  | [], _ :: _, _, h2 => by simp [strLeb] at h2
  | _ :: _, [], h1, _ => by simp [strLeb] at h1
  | a :: as, b :: bs, h1, h2 => by
    simp only [strLeb] at h1 h2
    rcases lt_trichotomy a b with hab | hab | hab
    · rw [if_neg (lt_asymm hab), if_pos hab] at h2; exact absurd h2 (by simp)
    · subst hab
      rw [if_neg (lt_irrefl a), if_neg (lt_irrefl a)] at h1 h2
      rw [strLeb_antisymm as bs h1 h2]
    · rw [if_neg (lt_asymm hab), if_pos hab] at h1; exact absurd h1 (by simp)

theorem sigLe_total (a b : Confirmation) : sigLe a b ∨ sigLe b a :=
  strLeb_total (sigKey a).data (sigKey b).data

theorem sigLe_trans {a b c : Confirmation} (h1 : sigLe a b) (h2 : sigLe b c) :
    sigLe a c :=
  strLeb_trans (sigKey a).data (sigKey b).data (sigKey c).data h1 h2

theorem sigKey_eq_of_le_le {a b : Confirmation} (h1 : sigLe a b) (h2 : sigLe b a) :
    sigKey a = sigKey b :=
  String.ext (strLeb_antisymm (sigKey a).data (sigKey b).data h1 h2)

theorem pairwiseAnd {α : Type} {R S : α → α → Prop} :
    ∀ {l : List α}, l.Pairwise R → l.Pairwise S →
      l.Pairwise fun a b => R a b ∧ S a b
  | [], _, _ => List.Pairwise.nil
  | a :: l, h1, h2 => by
    rcases List.pairwise_cons.mp h1 with ⟨ha1, ht1⟩
    rcases List.pairwise_cons.mp h2 with ⟨ha2, ht2⟩
    exact List.pairwise_cons.mpr ⟨fun b hb => ⟨ha1 b hb, ha2 b hb⟩, pairwiseAnd ht1 ht2⟩

theorem sortSigs_strict_sorted {l : List Confirmation}
    (hd : (l.map sigKey).Nodup) :
    (sortSigs l).Pairwise fun a b => sigLe a b ∧ sigKey a ≠ sigKey b := by
  letI : IsTotal Confirmation sigLe := ⟨sigLe_total⟩
  letI : IsTrans Confirmation sigLe := ⟨fun _ _ _ => sigLe_trans⟩
  have hperm : (sortSigs l).Perm l := List.perm_insertionSort sigLe l
  have hs : List.Sorted sigLe (sortSigs l) := List.sorted_insertionSort sigLe l
  have hd1 : ((sortSigs l).map sigKey).Nodup :=
    (List.Perm.nodup_iff (hperm.map sigKey)).mpr hd
  have hne : (sortSigs l).Pairwise fun a b => sigKey a ≠ sigKey b :=
    List.pairwise_map.mp hd1
  exact pairwiseAnd hs hne

theorem sortSigs_eq_of_perm {l1 l2 : List Confirmation} (hp : l1.Perm l2)
    (hd : (l1.map sigKey).Nodup) : sortSigs l1 = sortSigs l2 := by
  have hdl2 : (l2.map sigKey).Nodup := (List.Perm.nodup_iff (hp.map sigKey)).mp hd
  have h1 : (sortSigs l1).Perm l1 := List.perm_insertionSort sigLe l1
  have h2 : (sortSigs l2).Perm l2 := List.perm_insertionSort sigLe l2
  have hperm : (sortSigs l1).Perm (sortSigs l2) := h1.trans (hp.trans h2.symm)
  letI : IsAntisymm Confirmation fun a b => sigLe a b ∧ sigKey a ≠ sigKey b :=
    ⟨fun _ _ ha hb => absurd (sigKey_eq_of_le_le ha.1 hb.1) ha.2⟩
  exact List.eq_of_perm_of_sorted hperm (sortSigs_strict_sorted hd)
    (sortSigs_strict_sorted hdl2)

theorem joinAll_length : ∀ l : List String,
    (joinAll l).length = (l.map String.length).sum
  | [] => rfl
  | s :: rest => by
    simp [joinAll, String.length_append, joinAll_length rest]

theorem strLength_drop (s : String) (n : Nat) : (s.drop n).length = s.length - n := by
  show (s.drop n).data.length = s.data.length - n
  rw [String.data_drop, List.length_drop]

theorem sum_map_const_nat {α : Type} (k : Nat) :
    ∀ l : List α, (l.map fun _ => k).sum = k * l.length
  | [] => by simp
  | a :: t => by
    simp only [List.map_cons, List.sum_cons, List.length_cons,
      sum_map_const_nat k t, Nat.mul_succ]
    omega

theorem abiEncode_domain_eq_spec (keccak : List Nat → List Nat)
    (chainId : Nat) (safeAddress : String) :
    domainSeparatorOf keccak chainId safeAddress
      = specDomainSeparator keccak chainId safeAddress := by
  simp only [domainSeparatorOf, specDomainSeparator, encodeDomainTuple,
    abiBytes32, abiAddress, abiUint256_eq_specUint256]

theorem abiEncode_safeTx_eq_spec (keccak : List Nat → List Nat)
    (tx : SafeTransactionData) (hop : tx.operation < 256) :
    safeTxStructHashOf keccak tx = specStructHash keccak tx := by
  simp only [safeTxStructHashOf, specStructHash, encodeSafeTxTuple, abiBytes32,
    abiAddress, abiUint256_eq_specUint256, abiUint8_eq_specUint8as32 tx.operation hop]

/-- C1: for every SafeContext (safeAddress, chainId) and every SafeTransaction
(whose operation is a uint8), calculateSafeTransactionHash returns keccak256 of
the 66-byte packed concatenation 0x19, 0x01, domainSeparator, structHash, where
domainSeparator is keccak256 of the ABI-encoded tuple
(DOMAIN_SEPARATOR_TYPEHASH, chainId as uint256, safeAddress left-zero-padded to
32 bytes) and structHash is keccak256 of the ABI-encoded 11-tuple
(SAFE_TX_TYPEHASH, to, value, keccak256(data), operation as uint8 padded to 32
bytes, safeTxGas, baseGas, gasPrice, gasToken, refundReceiver, nonce), with the
integer fields as uint256 and the addresses left-zero-padded to 32 bytes. -/
theorem calculateSafeTransactionHash_follows_eip712
    (keccak : List Nat → List Nat) (hk : ∀ bs, (keccak bs).length = 32)
    (safeAddress : String) (chainId : Nat) (tx : SafeTransactionData)
    (hop : tx.operation < 256) :
    calculateSafeTransactionHash keccak safeAddress chainId tx
        = keccak (specPackedInput keccak safeAddress chainId tx)
      ∧ (specPackedInput keccak safeAddress chainId tx).length = 66 := by
  constructor
  · simp only [calculateSafeTransactionHash, specPackedInput,
      abiEncode_domain_eq_spec keccak chainId safeAddress,
      abiEncode_safeTx_eq_spec keccak tx hop]
    rfl
  · simp [specPackedInput, specDomainSeparator, specStructHash, hk]

/-- Closed witness for C1 at a concrete digest function, context and
transaction, discharging the hypotheses there. -/
theorem calculateSafeTransactionHash_follows_eip712_witness :
    (∀ bs, (keccak0 bs).length = 32) ∧ tx0.operation < 256 ∧
      (calculateSafeTransactionHash keccak0 addr0 100 tx0
          = keccak0 (specPackedInput keccak0 addr0 100 tx0)
        ∧ (specPackedInput keccak0 addr0 100 tx0).length = 66) :=
  ⟨fun bs => by simp [keccak0], by decide,
    calculateSafeTransactionHash_follows_eip712 keccak0
      (fun bs => by simp [keccak0]) addr0 100 tx0 (by decide)⟩

/-- C2: calculateSafeTransactionHash is deterministic: it is a pure function
of its inputs (no hidden state, randomness or network access is available to
it), so two invocations on equal inputs return equal hashes. -/
theorem calculateSafeTransactionHash_deterministic
    (keccak : List Nat → List Nat) (a a2 : String) (c c2 : Nat)
    (t t2 : SafeTransactionData) (ha : a = a2) (hc : c = c2) (ht : t = t2) :
    calculateSafeTransactionHash keccak a c t
      = calculateSafeTransactionHash keccak a2 c2 t2 := by
  subst ha; subst hc; subst ht; rfl

/-- Closed witness for C2 at a concrete digest function and inputs. -/
theorem calculateSafeTransactionHash_deterministic_witness :
    addr0 = addr0 ∧ (100 : Nat) = 100 ∧ tx0 = tx0 ∧
      calculateSafeTransactionHash keccak0 addr0 100 tx0
        = calculateSafeTransactionHash keccak0 addr0 100 tx0 :=
  ⟨rfl, rfl, rfl,
    calculateSafeTransactionHash_deterministic keccak0 addr0 addr0 100 100 tx0 tx0
      rfl rfl rfl⟩

/-- C3: for signature lists whose signer addresses are pairwise distinct as
20-byte addresses (that is, distinct after lower-casing), the output string of
combineSignatures is invariant under permutation of the input order. -/
theorem combineSignatures_order_invariant (l1 l2 : List Confirmation)
    (hp : l1.Perm l2) (hd : (l1.map sigKey).Nodup) :
    (combineSignatures l1).2 = (combineSignatures l2).2 := by
  simp only [combineSignatures, sortSigs_eq_of_perm hp hd]

/-- Closed witness for C3: the two orders of a concrete two-signer set. -/
theorem combineSignatures_order_invariant_witness :
    [cB, cA].Perm [cA, cB] ∧ ([cB, cA].map sigKey).Nodup ∧
      (combineSignatures [cB, cA]).2 = (combineSignatures [cA, cB]).2 :=
  ⟨List.Perm.swap cA cB [], by decide,
    combineSignatures_order_invariant [cB, cA] [cA, cB]
      (List.Perm.swap cA cB []) (by decide)⟩

/-- C4: for every input list with pairwise-distinct (lower-cased) signer
addresses, the output of combineSignatures concatenates the 0x-stripped
signatures over an arrangement of the input that is strictly ascending in the
lower-cased signer address, compared lexicographically. -/
theorem combineSignatures_sorted_by_signer (l : List Confirmation)
    (hd : (l.map sigKey).Nodup) :
    ∃ p : List Confirmation, p.Perm l ∧
      (p.Pairwise fun a b => sigLe a b ∧ sigKey a ≠ sigKey b) ∧
      (combineSignatures l).2 = "0x" ++ joinAll (p.map fun s => s.signature.drop 2) :=
  ⟨sortSigs l, List.perm_insertionSort sigLe l, sortSigs_strict_sorted hd, rfl⟩

/-- Closed witness for C4 at a concrete unsorted two-signer list. -/
theorem combineSignatures_sorted_by_signer_witness :
    ([cB, cA].map sigKey).Nodup ∧
      ∃ p : List Confirmation, p.Perm [cB, cA] ∧
        (p.Pairwise fun a b => sigLe a b ∧ sigKey a ≠ sigKey b) ∧
        (combineSignatures [cB, cA]).2
          = "0x" ++ joinAll (p.map fun s => s.signature.drop 2) :=
  ⟨by decide, combineSignatures_sorted_by_signer [cB, cA] (by decide)⟩

/-- C5 counterexample: combineSignatures takes no required count and performs
no quorum validation at all; on the empty signature set (0 distinct signers,
below any positive threshold) it happily returns the bundle 0x instead of
failing with InsufficientSignaturesError. -/
theorem combineSignatures_below_quorum_cex :
    (combineSignatures ([] : List Confirmation)).2 = "0x" ∧
      ([] : List Confirmation).length < 1 :=
  ⟨by decide, by decide⟩

/-- C5 amended: combineSignatures never refuses: for every signature list,
also below any quorum, it returns the 0x-prefixed concatenation of the sorted
0x-stripped signatures; the only quorum comparison in the source lives in
verifySignatures, which callers run before combining. -/
theorem combineSignatures_ignores_quorum (l : List Confirmation) :
    (combineSignatures l).2
      = "0x" ++ joinAll ((sortSigs l).map fun sig => sig.signature.drop 2) := rfl

set_option maxRecDepth 100000 in
/-- C7 counterexample: one valid 65-byte signature (0x plus 130 hex characters)
yields a bundle of 132 characters, not the 1 + 130 * 1 the claim states. -/
theorem combineSignatures_bundle_length_cex :
    ((combineSignatures [sig132]).2).length = 132 ∧ (132 : Nat) ≠ 1 + 130 * 1 :=
  ⟨by decide, by decide⟩

/-- C7 amended: for N valid 65-byte signatures (each a 132-character
0x-prefixed hex string), the bundle is exactly 2 + 130 * N characters: the
two-character 0x prefix plus 130 hex characters (65 bytes) per signature,
with no separators. -/
theorem combineSignatures_bundle_length (l : List Confirmation)
    (h : ∀ s ∈ l, s.signature.length = 132) :
    ((combineSignatures l).2).length = 2 + 130 * l.length := by
  have hperm : (sortSigs l).Perm l := List.perm_insertionSort sigLe l
  have hmem : ∀ s ∈ sortSigs l, s.signature.length = 132 := fun s hs =>
    h s (hperm.mem_iff.mp hs)
  show ("0x" ++ joinAll ((sortSigs l).map fun sig => sig.signature.drop 2)).length = _
  rw [String.length_append, joinAll_length, List.map_map]
  have hc : (sortSigs l).map (String.length ∘ fun sig => sig.signature.drop 2)
      = (sortSigs l).map fun _ => 130 := by
    apply List.map_congr_left
    intro s hs
    show (s.signature.drop 2).length = 130
    rw [strLength_drop, hmem s hs]
  rw [hc, sum_map_const_nat, hperm.length_eq]
  rfl

set_option maxRecDepth 100000 in
/-- Closed witness for C7 amended at a concrete one-element list. -/
theorem combineSignatures_bundle_length_witness :
    (∀ s ∈ [sig132], s.signature.length = 132) ∧
      ((combineSignatures [sig132]).2).length = 2 + 130 * [sig132].length :=
  ⟨by decide, combineSignatures_bundle_length [sig132] (by decide)⟩

/-- C9: combineSignatures sorts its argument array in place:
Array.prototype.sort mutates the receiver, so after the call the caller's
array holds the sorted order; on a concretely unsorted input the post-call
contents differ from the pre-call contents. -/
theorem combineSignatures_mutates_argument :
    (∀ l : List Confirmation, (combineSignatures l).1 = sortSigs l) ∧
      (combineSignatures [cB, cA]).1 ≠ [cB, cA] :=
  ⟨fun _ => rfl, by decide⟩

/-- C6 (coordinator modelled from the spec): adding a second signature with
the same signer address for the same transaction hash fails with
DuplicateSignerError, and the recorded set still holds exactly the first
signature (rejection, not overwrite). -/
theorem addSignature_duplicate_rejected (st : List RecordedSignature)
    (s1 s2 : RecordedSignature)
    (h1 : ∀ r ∈ st, r.signerAddress ≠ s1.signerAddress)
    (h2 : s2.signerAddress = s1.signerAddress) :
    addSignature st s1 = Except.ok (st ++ [s1]) ∧
      addSignature (st ++ [s1]) s2 = Except.error CoordError.DuplicateSignerError := by
  constructor
  · have hany : (st.any fun r => r.signerAddress == s1.signerAddress) = false := by
      rw [List.any_eq_false]
      intro r hr
      simpa using h1 r hr
    simp [addSignature, hany]
  · have hany : ((st ++ [s1]).any fun r => r.signerAddress == s2.signerAddress) = true := by
      rw [List.any_eq_true]
      exact ⟨s1, by simp, by simp [h2]⟩
    simp [addSignature, hany]

/-- Closed witness for C6: a fresh store, then the same signer twice with
different signature bytes. -/
theorem addSignature_duplicate_rejected_witness :
    (∀ r ∈ ([] : List RecordedSignature), r.signerAddress ≠ recA.signerAddress) ∧
      recB.signerAddress = recA.signerAddress ∧
      (addSignature [] recA = Except.ok ([] ++ [recA]) ∧
        addSignature ([] ++ [recA]) recB
          = Except.error CoordError.DuplicateSignerError) :=
  ⟨by simp, rfl,
    addSignature_duplicate_rejected [] recA recB (by simp) rfl⟩

/-- C8: over confirmation lists with pairwise-distinct recorded signers, the
quorum comparison of verifySignatures returns true iff the number of distinct
signers reaches the required count; in particular it is false at
required - 1 signers and true at required signers. -/
theorem verifySignaturesCheck_quorum (l : List Confirmation) (req : Nat)
    (hd : (l.map fun c => c.signer.value).Nodup) :
    (verifySignaturesCheck l req = true ↔
        (l.map fun c => c.signer.value).dedup.length ≥ req) ∧
      ((l.map fun c => c.signer.value).dedup.length = req - 1 → 1 ≤ req →
        verifySignaturesCheck l req = false) ∧
      ((l.map fun c => c.signer.value).dedup.length = req →
        verifySignaturesCheck l req = true) := by
  rw [List.Nodup.dedup hd, List.length_map]
  refine ⟨by simp [verifySignaturesCheck], ?_, ?_⟩
  · intro hlen hreq
    simp only [verifySignaturesCheck, decide_eq_false_iff_not]
    omega
  · intro hlen
    simp only [verifySignaturesCheck, decide_eq_true_eq]
    omega

/-- Closed witness for C8: two distinct signers against a threshold of two. -/
theorem verifySignaturesCheck_quorum_witness :
    ([cA, cB].map fun c => c.signer.value).Nodup ∧
      ((verifySignaturesCheck [cA, cB] 2 = true ↔
          ([cA, cB].map fun c => c.signer.value).dedup.length ≥ 2) ∧
        (([cA, cB].map fun c => c.signer.value).dedup.length = 2 - 1 → 1 ≤ 2 →
          verifySignaturesCheck [cA, cB] 2 = false) ∧
        (([cA, cB].map fun c => c.signer.value).dedup.length = 2 →
          verifySignaturesCheck [cA, cB] 2 = true)) :=
  ⟨by decide, verifySignaturesCheck_quorum [cA, cB] 2 (by decide)⟩

/-- C10: getSafeInfo validates before fetching: whenever the Safe address does
not match the address pattern, or the chain id or address is empty, the
function throws and no request value is produced (no fetch is issued). -/
theorem getSafeInfo_validates_before_fetch (chainId safeAddress : String)
    (h : isValidSafeAddress safeAddress = false ∨ chainId = "" ∨ safeAddress = "") :
    ∃ msg, getSafeInfoRequest chainId safeAddress = Except.error msg := by
  by_cases hc : chainId = ""
  · exact ⟨"Chain ID and Safe address are required", by simp [getSafeInfoRequest, hc]⟩
  · by_cases hs : safeAddress = ""
    · exact ⟨"Chain ID and Safe address are required", by simp [getSafeInfoRequest, hs]⟩
    · have hv : isValidSafeAddress safeAddress = false := by tauto
      exact ⟨"Invalid Safe address format", by simp [getSafeInfoRequest, hc, hs, hv]⟩

/-- Closed witness for C10: a malformed (too short) Safe address. -/
theorem getSafeInfo_validates_before_fetch_witness :
    (isValidSafeAddress "0xdead" = false ∨ ("100" : String) = "" ∨
        ("0xdead" : String) = "") ∧
      ∃ msg, getSafeInfoRequest "100" "0xdead" = Except.error msg :=
  ⟨Or.inl (by decide),
    getSafeInfo_validates_before_fetch "100" "0xdead" (Or.inl (by decide))⟩
